import Mathlib

/-!
Verification development for the REBATE_SIMULATOR repository.

The repository implements a rebate-grid simulator and optimizer:
`app.py` parses a tabular rate grid and assigns accounts to
(volume-tier, growth-tier) cells; `Optimized_Rebate_Simulator.py`
(class `RebateOptimizer`) and `ML_Rebate_Optimizer.py`
(class `MLRebateOptimizer`) aggregate revenue per cell and run a
bounded, linearly-constrained search over the flattened rate grid.

This file is a shallow embedding of that code: Python floats are
modelled by `ℚ` (with an explicit `FVal` type where IEEE specials
NaN/±inf matter), Python lists by `List`, numpy vectors by `List ℚ`,
and the scipy solver by an abstract deterministic function parameter.
-/

namespace RebateSim

/-! ## Character / string helpers (model of Python `str` operations)

Python strings are modelled through their character lists (`String.data`).
`str.strip()` is modelled by `stripChars` (drop whitespace on both ends),
`'%' in s` by `List.contains`, and `s.replace('%','')` by filtering out
the `'%'` character.
-/

/-- Model of Python `str.strip()` on a character list: drop whitespace
from both ends. -/
def stripChars (l : List Char) : List Char :=
  ((l.dropWhile Char.isWhitespace).reverse.dropWhile Char.isWhitespace).reverse

/-- Value of a digit run, most significant first (model of the integer
part of Python's decimal-literal parsing). -/
def digitsVal (l : List Char) : ℕ :=
  l.foldl (fun a c => a * 10 + (c.toNat - 48)) 0

/-- Model of Python `float()` on a finite decimal literal, over a
character list: optional sign, then digits with at most one decimal
point (`"5"`, `"5."`, `".5"`, `"-0.25"`). Inputs outside this shape
(including exponents and the special words accepted by `float()` such
as `"nan"`/`"inf"`, which never occur in the grids modelled here)
yield `none`, the embedding of a raised `ValueError`. -/
def parseUnsignedChars (cs : List Char) : Option ℚ :=
  let ip := cs.takeWhile Char.isDigit
  let rest := cs.dropWhile Char.isDigit
  match rest with
  | [] => if ip.isEmpty then none else some (digitsVal ip : ℚ)
  | '.' :: fp =>
    if fp.all Char.isDigit && !(ip.isEmpty && fp.isEmpty) then
      some ((digitsVal ip : ℚ) + (digitsVal fp : ℚ) / (10 : ℚ) ^ fp.length)
    else none
  | _ => none

/-- Signed decimal parsing on a character list: an optional sign in
front of `parseUnsignedChars`. -/
def parseSignedChars (cs : List Char) : Option ℚ :=
  match cs with
  | '-' :: rest => (parseUnsignedChars rest).map (fun q => -q)
  | '+' :: rest => parseUnsignedChars rest
  | _ => parseUnsignedChars cs

/-- Model of Python `float(s)`: strip surrounding whitespace (as
`float()` does), handle an optional sign, then parse a decimal
literal. -/
def parseFloat (s : String) : Option ℚ :=
  parseSignedChars (stripChars s.data)

/-- One left-to-right pass extracting the numeric tokens matched by the
regex `\d+\.?\d*` (used by `parse_grid` in `app.py` via
`re.findall(r'\d+\.?\d*', ...)`): maximal digit runs, optionally
containing one decimal point directly after the leading digits.
`acc` is the current token (reversed), `seenDot` records whether the
current token already consumed its optional dot. -/
def numTokensAux : List Char → List Char → Bool → List (List Char)
  | [], acc, _ =>
    match acc with
    | [] => []
    | _ => [acc.reverse]
  | ch :: rest, acc, seenDot =>
    if ch.isDigit then numTokensAux rest (ch :: acc) seenDot
    else if ch == '.' && !acc.isEmpty && !seenDot then
      numTokensAux rest ('.' :: acc) true
    else
      match acc with
      | [] => numTokensAux rest [] false
      | _ => acc.reverse :: numTokensAux rest [] false

/-- All numeric tokens of a string, as matched by `re.findall(r'\d+\.?\d*', s)`. -/
def numTokens (cs : List Char) : List (List Char) := numTokensAux cs [] false

/-! ## `parse_grid` (app.py, lines 11–64) -/

/-- A volume bin `(lower, upper)`; the upper bound `⊤` models `np.inf`
(an unbounded top bin). Growth bins in the optimizer classes have the
same shape. -/
abbrev RateBin : Type := ℚ × WithTop ℚ

/-- A finite float viewed among the edge values that may also be
`np.inf` (`⊤`). -/
def toTop (q : ℚ) : WithTop ℚ := (q : WithTop ℚ)

/-- Parsing of one volume-bin label (app.py lines 20–31): a label
containing `'+'` takes its first numeric token as the lower bound with
an infinite upper bound (`IndexError` on no token is caught and the
row skipped); otherwise the label must contain exactly two numeric
tokens `lower`/`upper`. Any other shape contributes no bin. -/
def parseVolLabel (s : String) : Option RateBin :=
  if s.data.contains '+' then
    match numTokens s.data with
    | [] => none
    | t :: _ => (parseUnsignedChars t).map (fun l => (l, (⊤ : WithTop ℚ)))
  else
    match numTokens s.data with
    | [a, b] =>
      match parseUnsignedChars a, parseUnsignedChars b with
      | some l, some u => some (l, (u : WithTop ℚ))
      | _, _ => none
    | _ => none

/-- Parsing of one rate cell (app.py lines 50–62): strip the cell text;
a value containing `'%'` is the number with the markers removed,
divided by 100; a bare number greater than 1 is divided by 100; a bare
number at most 1 is taken as-is; an unparseable cell defaults to rate 0
(the `except` branch). -/
def parse_rate_cell (s : String) : ℚ :=
  let t := stripChars s.data
  if t.contains '%' then
    match parseSignedChars (stripChars (t.filter (fun ch => ch != '%'))) with
    | some v => v / 100
    | none => 0
  else
    match parseSignedChars t with
    | some v => if 1 < v then v / 100 else v
    | none => 0

/-- The cell of the grid at data row `i`, column `j` (positional, like
`grid_df.iloc[i, j]` over `pd.DataFrame(grid_data[1:], ...)`): row `i`
of the rows after the header. A position outside the stored cells
defaults to the string `"nan"`, pandas' padding value for short rows
(`str(nan) = "nan"`). -/
def gridCell (grid : List (List String)) (i j : ℕ) : String :=
  (grid.tail.getD i []).getD j "nan"

/-- Shallow embedding of `parse_grid` (app.py lines 11–64).

Input: the grid as a list of rows of cell strings, first row = header.
Output `(volume_bins, growth_bins, rebate_rates)`:
  * `volume_bins`: each first-column label parsed by `parseVolLabel`,
    unparseable labels skipped (`except ... continue`);
  * `growth_bins`: the column headers after the first that parse as
    floats (unparseable headers skipped), sorted ascending
    (`growth_bins.sort()`), with `np.inf` (`⊤`) appended;
  * `rebate_rates`: for `i` below the number of volume bins and `j`
    below the number of growth bins minus one, the key `(i, j)`
    (modelling the label pair `(f"V{i+1}", f"G{j+1}")`) mapped to the
    parsed rate of the cell at data row `i`, input column `j + 1`.
A grid with fewer than 2 rows yields three empty collections. -/
def parse_grid (grid : List (List String)) :
    List RateBin × List (WithTop ℚ) × List ((ℕ × ℕ) × ℚ) :=
  if grid.length < 2 then ([], [], []) else
  let header := grid.headD []
  let volume_bins := (grid.tail.map (fun row => row.headD "nan")).filterMap parseVolLabel
  let gnums := List.insertionSort (fun a b => a ≤ b) (header.tail.filterMap parseFloat)
  let growth_bins := gnums.map toTop ++ [(⊤ : WithTop ℚ)]
  let rates := (List.range volume_bins.length).flatMap (fun i =>
    (List.range (growth_bins.length - 1)).map (fun j =>
      ((i, j), parse_rate_cell (gridCell grid i (j + 1)))))
  (volume_bins, growth_bins, rates)

/-! ## Python/pandas float values with IEEE specials (`FVal`)

`assign_tiers_from_bins` (app.py lines 66–85) divides by a possibly
zero prior revenue, so NaN and ±inf must be modelled explicitly. -/

/-- A pandas cell value after `pd.to_numeric(..., errors='coerce')`:
a finite float (`ℚ`), NaN, `+inf` or `-inf`. -/
inductive FVal where
  | num : ℚ → FVal
  | nan : FVal
  | pinf : FVal
  | ninf : FVal
deriving DecidableEq

/-- IEEE-754 subtraction on `FVal` (numpy/pandas semantics). -/
def fsub : FVal → FVal → FVal
  | .nan, _ => .nan
  | _, .nan => .nan
  | .num a, .num b => .num (a - b)
  | .num _, .pinf => .ninf
  | .num _, .ninf => .pinf
  | .pinf, .num _ => .pinf
  | .pinf, .pinf => .nan
  | .pinf, .ninf => .pinf
  | .ninf, .num _ => .ninf
  | .ninf, .pinf => .ninf
  | .ninf, .ninf => .nan

/-- IEEE-754 division on `FVal` (numpy/pandas semantics):
`x/0` is `±inf` for `x ≠ 0` and NaN for `0/0`; `±inf/±inf` is NaN;
a finite value divided by `±inf` is 0. -/
def fdiv : FVal → FVal → FVal
  | .nan, _ => .nan
  | _, .nan => .nan
  | .num a, .num b =>
    if b = 0 then (if 0 < a then .pinf else if a < 0 then .ninf else .nan)
    else .num (a / b)
  | .num _, .pinf => .num 0
  | .num _, .ninf => .num 0
  | .pinf, .num b => if 0 ≤ b then .pinf else .ninf
  | .ninf, .num b => if 0 ≤ b then .ninf else .pinf
  | .pinf, .pinf => .nan
  | .pinf, .ninf => .nan
  | .ninf, .pinf => .nan
  | .ninf, .ninf => .nan

/-- The raw growth column `(curryr_rev - prevyr_rev) / prevyr_rev`
(app.py line 78, and identically `Optimized_Rebate_Simulator.py`
line 37 / `ML_Rebate_Optimizer.py` line 72). -/
def growth_raw (curr prev : FVal) : FVal := fdiv (fsub curr prev) prev

/-- The growth guard of `assign_tiers_from_bins` (app.py lines 79–80):
`replace([inf, -inf], 0)` followed by `fillna(0)` — every non-finite
growth value becomes the finite value 0. -/
def cleanGrowth : FVal → FVal
  | .num q => .num q
  | _ => .num 0

/-- `RebateOptimizer.set_bins` (Optimized_Rebate_Simulator.py line 37)
computes the same raw growth column but applies no inf/NaN guard. -/
def set_bins_growth_val (curr prev : FVal) : FVal := fdiv (fsub curr prev) prev

/-- Model of `pd.cut(x, bins=edges, right=False)`: the index `i` of the
left-closed right-open interval `[edges[i], edges[i+1])` containing
`x`, or `none` (pandas code `-1`) when `x` falls in no interval. -/
def pdCutIdx (edges : List (WithTop ℚ)) (x : WithTop ℚ) : Option ℕ :=
  match edges with
  | a :: b :: rest =>
    if a ≤ x ∧ x < b then some 0
    else (pdCutIdx (b :: rest) x).map (fun n => n + 1)
  | _ => none

/-- The bin code `pd.cut` assigns to a possibly non-finite value:
NaN values get no code, `+inf` is compared as `⊤` (it lies in no
right-open interval), `-inf` lies below every finite edge. -/
def gIdxOf (edges : List (WithTop ℚ)) (v : FVal) : Option ℕ :=
  match v with
  | .num q => pdCutIdx edges (q : WithTop ℚ)
  | .pinf => pdCutIdx edges ⊤
  | _ => none

/-! ## `RebateOptimizer` (Optimized_Rebate_Simulator.py) -/

/-- The exemption test used throughout `RebateOptimizer`
(`self.growth_bins[c][1] <= 0.08`): column `c` is exempt iff its
growth-bin upper bound is at most the 8% no-rebate threshold
(`np.inf ≤ 0.08` is false, so an unbounded top bin is never exempt). -/
def exemptCol (gb : List RateBin) (c : ℕ) : Bool :=
  decide ((gb.getD c (0, ⊤)).2 ≤ (((8 : ℚ)/100 : ℚ) : WithTop ℚ))

/-- One row of each aggregate table `self.agg_data`:
`(v_idx, g_idx, revenue sum)`. -/
def AggRow : Type := ℕ × ℕ × ℚ

/-- Shallow embedding of `RebateOptimizer.objective_function`
(lines 50–79). `flat_rates.reshape((rows, cols))` followed by the fancy
indexing `rates_grid[v_idx, g_idx]` reads, for each aggregate row,
the flat entry `v_idx * cols + g_idx` (row-major reshape). -/
def objective_function (elasticity : ℚ) (cols : ℕ) (agg : List AggRow)
    (flat_rates : List ℚ) : ℚ :=
  -((agg.map (fun e =>
      let applied_rate := flat_rates.getD (e.1 * cols + e.2.1) 0
      let base_revenue := e.2.2
      let projected_revenue := base_revenue * (1 + elasticity * applied_rate)
      let rebate_cost := projected_revenue * applied_rate
      projected_revenue - rebate_cost)).sum)

/-- Shallow embedding of `MLRebateOptimizer.objective_function`
(ML_Rebate_Optimizer.py lines 83–107). The fitted
`LinearRegression` predicts `growth = intercept + coef * rate`. -/
def ML_objective_function (coef intercept : ℚ) (cols : ℕ) (agg : List AggRow)
    (flat_rates : List ℚ) : ℚ :=
  -((agg.map (fun e =>
      let applied_rate := flat_rates.getD (e.1 * cols + e.2.1) 0
      let predicted_growth := intercept + coef * applied_rate
      let base_revenue := e.2.2
      let projected_revenue := base_revenue * (1 + predicted_growth)
      let rebate_cost := projected_revenue * applied_rate
      projected_revenue - rebate_cost)).sum)

/-- The constraint row built in `get_constraints`:
`row = np.zeros(num_vars); row[i] = 1; row[j] = -1`. -/
def unitDiff (n i j : ℕ) : List ℚ :=
  ((List.replicate n (0 : ℚ)).set i 1).set j (-1)

/-- The parallel `(A_row, lb, ub)` triples appended by the two loop
nests of `RebateOptimizer.get_constraints` (lines 92–131): the volume
loop (`r` in `range(1, rows)`, `c` in `range(cols)`, skipping exempt
columns), then the growth loop (`r` in `range(rows)`, `c` in
`range(1, cols)`, skipping pairs where column `c` or `c-1` is exempt).
`ub` entries are `np.inf`, modelled by `none`. -/
def conTriples (vb gb : List RateBin) (min_increment : ℚ) :
    List (List ℚ × ℚ × Option ℚ) :=
  let rows := vb.length
  let cols := gb.length
  let num_vars := rows * cols
  ((List.range' 1 (rows - 1)).flatMap (fun r =>
    (List.range cols).filterMap (fun c =>
      if exemptCol gb c then none
      else some (unitDiff num_vars (r * cols + c) ((r - 1) * cols + c),
                 min_increment, (none : Option ℚ)))))
  ++
  ((List.range rows).flatMap (fun r =>
    (List.range' 1 (cols - 1)).filterMap (fun c =>
      if exemptCol gb c then none
      else if exemptCol gb (c - 1) then none
      else some (unitDiff num_vars (r * cols + c) (r * cols + (c - 1)),
                 min_increment, (none : Option ℚ)))))

/-- Model of a `scipy.optimize.LinearConstraint(A, lb, ub)` value. -/
structure PyLinearConstraint where
  A : List (List ℚ)
  lb : List ℚ
  ub : List (Option ℚ)

/-- Shallow embedding of `RebateOptimizer.get_constraints` (lines
81–136): build the constraint triples; `if not A_rows: return None`,
otherwise the `LinearConstraint` over the three parallel lists. -/
def get_constraints (vb gb : List RateBin) (min_increment : ℚ) :
    Option PyLinearConstraint :=
  let ts := conTriples vb gb min_increment
  if ts.isEmpty then none
  else some { A := ts.map (fun t => t.1),
              lb := ts.map (fun t => t.2.1),
              ub := ts.map (fun t => t.2.2) }

/-- `constraints_arg = [cons] if cons else []` (line 166): a present
`LinearConstraint` object is truthy, `None` is falsy. -/
def constraints_arg (cons : Option PyLinearConstraint) :
    List PyLinearConstraint :=
  match cons with
  | some c => [c]
  | none => []

/-- The per-variable bounds built by `RebateOptimizer.optimize`
(lines 147–158): exempt cells are pinned to `(0.0, 1e-9)`, all other
cells get `(0.01, 0.15)`; row-major over `rows × cols`. -/
def mkBounds (vb gb : List RateBin) : List (ℚ × ℚ) :=
  (List.range vb.length).flatMap (fun _r =>
    (List.range gb.length).map (fun c =>
      if exemptCol gb c then ((0 : ℚ), (1 : ℚ)/1000000000)
      else ((1 : ℚ)/100, (15 : ℚ)/100)))

/-- The initial guess built by `RebateOptimizer.optimize` (lines
148–162): `0.0` for exempt cells, `0.01 + (r + c) * 0.01` otherwise
(no clipping is applied). -/
def mkInitialGuess (vb gb : List RateBin) : List ℚ :=
  (List.range vb.length).flatMap (fun r =>
    (List.range gb.length).map (fun c =>
      if exemptCol gb c then (0 : ℚ)
      else (1 : ℚ)/100 + ((r + c : ℕ) : ℚ) * ((1 : ℚ)/100)))

/-- What `scipy.optimize.minimize` returns, restricted to the fields
`RebateOptimizer.optimize` reads: `result.success`, `result.x`,
`result.fun` (renamed `fval`) and `result.message`. -/
structure MinimizeResult where
  success : Bool
  x : List ℚ
  fval : ℚ
  message : String

/-- The external solver as a deterministic function of exactly the
arguments `optimize` passes: objective, initial guess, bounds and
constraint list. `scipy`'s `trust-constr` method uses no randomness,
so two calls with equal arguments return equal results — which this
functional model captures. -/
def Solver : Type :=
  (List ℚ → ℚ) → List ℚ → List (ℚ × ℚ) → List PyLinearConstraint → MinimizeResult

/-- The state of a `RebateOptimizer` instance after `set_bins`:
constructor arguments, raw data, bin configuration and the
pre-aggregated per-cell revenue table. -/
structure RebateOptimizerState where
  data_path : String
  elasticity : ℚ
  df_base : List (ℚ × ℚ)
  volume_bins : List RateBin
  growth_bins : List RateBin
  agg_data : List AggRow

/-- `result.x.reshape((rows, cols))`: the flat vector read back
row-major as a `rows × cols` grid. -/
def reshape (rows cols : ℕ) (flat : List ℚ) : List (List ℚ) :=
  (List.range rows).map (fun r =>
    (List.range cols).map (fun c => flat.getD (r * cols + c) 0))

/-- Shallow embedding of `RebateOptimizer.optimize` (lines 138–188):
build bounds, initial guess and constraints, call the solver, and in
BOTH the `result.success` and the failure branch return the pair
`(result.x reshaped, -result.fun)` (the failure branch only prints
`result.message` before returning the same shape). -/
def optimize (S : Solver) (st : RebateOptimizerState) : List (List ℚ) × ℚ :=
  let rows := st.volume_bins.length
  let cols := st.growth_bins.length
  let bounds := mkBounds st.volume_bins st.growth_bins
  let initial_guess := mkInitialGuess st.volume_bins st.growth_bins
  let cons := get_constraints st.volume_bins st.growth_bins (1/100)
  let result := S (objective_function st.elasticity cols st.agg_data)
    initial_guess bounds (constraints_arg cons)
  if result.success then (reshape rows cols result.x, -result.fval)
  else (reshape rows cols result.x, -result.fval)

/-- The raw solver result `optimize` computes internally (the value of
`result` at line 171), exposed for stating what `optimize` returns. -/
def solverResult (S : Solver) (st : RebateOptimizerState) : MinimizeResult :=
  S (objective_function st.elasticity st.growth_bins.length st.agg_data)
    (mkInitialGuess st.volume_bins st.growth_bins)
    (mkBounds st.volume_bins st.growth_bins)
    (constraints_arg (get_constraints st.volume_bins st.growth_bins (1/100)))

/-! ## Specification-side definitions

These follow the wording of the specification, to be compared with the
definitions above that follow the source. -/

/-- The constraint system exactly as the specification words it: the
index pairs `(index(r,c), index(r-1,c))` for every non-exempt column
`c` and every `r ≥ 1` (volume direction), and `(index(r,c),
index(r,c-1))` for every row `r` and every `c ≥ 1` with both columns
`c` and `c-1` non-exempt (growth direction), over the row-major
flattening `index(r,c) = r*cols + c`. -/
def specConstraintPairs (rows cols : ℕ) (exempt : ℕ → Bool) : List (ℕ × ℕ) :=
  ((List.range' 1 (rows - 1)).flatMap (fun r =>
    (List.range cols).filterMap (fun c =>
      if exempt c then none
      else some (r * cols + c, (r - 1) * cols + c))))
  ++
  ((List.range rows).flatMap (fun r =>
    (List.range' 1 (cols - 1)).filterMap (fun c =>
      if exempt c || exempt (c - 1) then none
      else some (r * cols + c, r * cols + (c - 1)))))

/-- Net revenue of one occupied cell as the specification words it:
`B[r,c] * (1 + response(x[r,c])) * (1 - x[r,c])` for a response model
`response`. -/
def net_revenue_spec (response : ℚ → ℚ) (B rate : ℚ) : ℚ :=
  B * (1 + response rate) * (1 - rate)

/-- The objective as the specification words it: the negated sum of
per-cell net revenues over the occupied cells. -/
def objective_spec (response : ℚ → ℚ) (cols : ℕ) (agg : List AggRow)
    (flat_rates : List ℚ) : ℚ :=
  -((agg.map (fun e =>
      net_revenue_spec response e.2.2 (flat_rates.getD (e.1 * cols + e.2.1) 0))).sum)

/-- The update of one grid cell (data row `r`, column `c`) to the
string `s`; used to state that `parse_grid` recovers locally from a
malformed cell. -/
def updateCell (grid : List (List String)) (r c : ℕ) (s : String) :
    List (List String) :=
  grid.set r ((grid.getD r []).set c s)

/-- A `RebateOptimizer` state used for the concrete non-convergence run. -/
def stNonConv : RebateOptimizerState :=
  { data_path := "DummyDataGpot2.csv", elasticity := 2, df_base := [(6000, 5000)],
    volume_bins := [((5000 : ℚ), (⊤ : WithTop ℚ))],
    growth_bins := [((0 : ℚ), (((8 : ℚ)/100 : ℚ) : WithTop ℚ))],
    agg_data := [(0, 0, 6000)] }

/-- A solver run that reports failure (`success = False`) with a
diagnostic message, next to one that reports success at the same
iterate and objective value. -/
def solverFailing : Solver :=
  fun _ g _ _ =>
    { success := false, x := g, fval := -5,
      message := "The maximum number of function evaluations is exceeded." }

/-- The converged counterpart of `solverFailing`. -/
def solverConverged : Solver :=
  fun _ g _ _ => { success := true, x := g, fval := -5, message := "" }

/-! ## Helper lemmas -/

theorem idx_lt {r c rows cols : ℕ} (hr : r < rows) (hc : c < cols) :
    r * cols + c < rows * cols := by
  have h1 : r * cols + c < (r + 1) * cols := by
    rw [Nat.add_mul, Nat.one_mul]; omega
  have h2 : (r + 1) * cols ≤ rows * cols :=
    Nat.mul_le_mul_right cols hr
  omega

theorem flatMap_grid_eq {α : Type} (cols : ℕ) (f : ℕ → ℕ → α) (rows : ℕ) :
    (List.range rows).flatMap (fun r => (List.range cols).map (f r)) =
      (List.range (rows * cols)).map (fun i => f (i / cols) (i % cols)) := by
  induction rows with
  | zero => simp
  | succ n ih =>
    rw [List.range_succ, List.flatMap_append, ih, Nat.succ_mul, List.range_add,
      List.map_append, List.map_map]
    simp only [List.flatMap_cons, List.flatMap_nil, List.append_nil]
    congr 1
    apply List.map_congr_left
    intro i hi
    have hic : i < cols := List.mem_range.mp hi
    have hcols : 0 < cols := Nat.lt_of_le_of_lt (Nat.zero_le _) hic
    simp only [Function.comp_apply]
    have h1 : (n * cols + i) / cols = n := by
      rw [Nat.mul_comm n cols, Nat.mul_add_div hcols, Nat.div_eq_of_lt hic, Nat.add_zero]
    have h2 : (n * cols + i) % cols = i := by
      rw [Nat.mul_comm n cols, Nat.mul_add_mod, Nat.mod_eq_of_lt hic]
    rw [h1, h2]

theorem grid_getD {α : Type} {rows cols r c : ℕ} (f : ℕ → ℕ → α) (d : α)
    (hr : r < rows) (hc : c < cols) :
    ((List.range rows).flatMap (fun r => (List.range cols).map (f r))).getD
      (r * cols + c) d = f r c := by
  rw [flatMap_grid_eq]
  have hlt : r * cols + c < rows * cols := idx_lt hr hc
  rw [List.getD_eq_getElem _ _ (by simpa using hlt), List.getElem_map, List.getElem_range]
  have hcols : 0 < cols := Nat.lt_of_le_of_lt (Nat.zero_le _) hc
  have h1 : (r * cols + c) / cols = r := by
    rw [Nat.mul_comm r cols, Nat.mul_add_div hcols, Nat.div_eq_of_lt hc, Nat.add_zero]
  have h2 : (r * cols + c) % cols = c := by
    rw [Nat.mul_comm r cols, Nat.mul_add_mod, Nat.mod_eq_of_lt hc]
  rw [h1, h2]

theorem flatMap_congr_mem {α β : Type} {l : List α} {f g : α → List β}
    (h : ∀ a ∈ l, f a = g a) : l.flatMap f = l.flatMap g := by
  induction l with
  | nil => rfl
  | cons a t ih =>
    rw [List.flatMap_cons, List.flatMap_cons, h a (by simp),
      ih (fun x hx => h x (by simp [hx]))]

theorem conTriples_eq (vb gb : List RateBin) (inc : ℚ) :
    conTriples vb gb inc =
      (specConstraintPairs vb.length gb.length (exemptCol gb)).map
        (fun p => (unitDiff (vb.length * gb.length) p.1 p.2, inc, (none : Option ℚ))) := by
  simp only [conTriples, specConstraintPairs]
  rw [List.map_append, List.map_flatMap, List.map_flatMap]
  congr 1
  · apply flatMap_congr_mem
    intro r _
    rw [List.map_filterMap]
    apply List.filterMap_congr
    intro c _
    by_cases h : exemptCol gb c <;> simp [h]
  · apply flatMap_congr_mem
    intro r _
    rw [List.map_filterMap]
    apply List.filterMap_congr
    intro c _
    by_cases h : exemptCol gb c
    · simp [h]
    · by_cases h2 : exemptCol gb (c - 1) <;> simp [h, h2]

theorem mem_specConstraintPairs {rows cols : ℕ} {ex : ℕ → Bool} {p : ℕ × ℕ}
    (hp : p ∈ specConstraintPairs rows cols ex) :
    ∃ r c, c < cols ∧ ex c = false ∧
      (p = (r * cols + c, (r - 1) * cols + c) ∨
       (ex (c - 1) = false ∧ p = (r * cols + c, r * cols + (c - 1)))) := by
  unfold specConstraintPairs at hp
  rw [List.mem_append] at hp
  rcases hp with hp | hp
  · rw [List.mem_flatMap] at hp
    obtain ⟨r, _, hc⟩ := hp
    rw [List.mem_filterMap] at hc
    obtain ⟨c, hcr, hceq⟩ := hc
    rcases Bool.eq_false_or_eq_true (ex c) with hex | hex
    · rw [hex] at hceq
      simp at hceq
    · rw [hex] at hceq
      simp only [Bool.false_eq_true, if_false, Option.some.injEq] at hceq
      exact ⟨r, c, List.mem_range.mp hcr, hex, Or.inl hceq.symm⟩
  · rw [List.mem_flatMap] at hp
    obtain ⟨r, _, hc⟩ := hp
    rw [List.mem_filterMap] at hc
    obtain ⟨c, hcr, hceq⟩ := hc
    rcases Bool.eq_false_or_eq_true (ex c || ex (c - 1)) with hex | hex
    · rw [hex] at hceq
      simp at hceq
    · rw [hex] at hceq
      simp only [Bool.false_eq_true, if_false, Option.some.injEq] at hceq
      rw [Bool.or_eq_false_iff] at hex
      have hcc : c < cols := by
        have := List.mem_range'_1.mp hcr
        omega
      exact ⟨r, c, hcc, hex.1, Or.inr ⟨hex.2, hceq.symm⟩⟩

theorem unitDiff_getD_ne {n i j k : ℕ} (hki : k ≠ i) (hkj : k ≠ j) :
    (unitDiff n i j).getD k 0 = 0 := by
  unfold unitDiff
  rw [List.getD_eq_getElem?_getD, List.getElem?_set_ne (fun h => hkj h.symm),
    List.getElem?_set_ne (fun h => hki h.symm)]
  rcases Nat.lt_or_ge k n with h | h
  · rw [List.getElem?_eq_getElem (by simpa using h)]
    simp
  · rw [List.getElem?_eq_none (by simpa using h)]
    rfl

theorem pdCutIdx_top (edges : List (WithTop ℚ)) : pdCutIdx edges ⊤ = none := by
  induction edges with
  | nil => rfl
  | cons a t ih =>
    cases t with
    | nil => rfl
    | cons b t2 =>
      unfold pdCutIdx
      rw [if_neg (by simp), ih]
      rfl

theorem flat_col_mod {r c cols : ℕ} (hc : c < cols) : (r * cols + c) % cols = c := by
  rw [Nat.mul_comm, Nat.mul_add_mod, Nat.mod_eq_of_lt hc]

theorem flat_idx_ne {r r' c c' cols : ℕ} (hc : c < cols) (hc' : c' < cols)
    (hne : c ≠ c') : r * cols + c ≠ r' * cols + c' := by
  intro heq
  apply hne
  have h := congrArg (fun n => n % cols) heq
  simp only at h
  rw [flat_col_mod hc, flat_col_mod hc'] at h
  exact h

theorem mkBounds_getD (vb gb : List RateBin) (r c : ℕ)
    (hr : r < vb.length) (hc : c < gb.length) (d : ℚ × ℚ) :
    (mkBounds vb gb).getD (r * gb.length + c) d =
      if exemptCol gb c then ((0 : ℚ), (1 : ℚ)/1000000000)
      else ((1 : ℚ)/100, (15 : ℚ)/100) := by
  unfold mkBounds
  exact grid_getD (fun _ c =>
    if exemptCol gb c then ((0 : ℚ), (1 : ℚ)/1000000000)
    else ((1 : ℚ)/100, (15 : ℚ)/100)) d hr hc

theorem mkInitialGuess_getD (vb gb : List RateBin) (r c : ℕ)
    (hr : r < vb.length) (hc : c < gb.length) (d : ℚ) :
    (mkInitialGuess vb gb).getD (r * gb.length + c) d =
      if exemptCol gb c then (0 : ℚ)
      else (1 : ℚ)/100 + ((r + c : ℕ) : ℚ) * ((1 : ℚ)/100) := by
  unfold mkInitialGuess
  exact grid_getD (fun r c =>
    if exemptCol gb c then (0 : ℚ)
    else (1 : ℚ)/100 + ((r + c : ℕ) : ℚ) * ((1 : ℚ)/100)) d hr hc

theorem constraint_rows_are_unitDiffs {vb gb : List RateBin} {inc : ℚ}
    {sys : PyLinearConstraint} (hsys : get_constraints vb gb inc = some sys)
    {a : List ℚ} (ha : a ∈ sys.A) :
    ∃ p ∈ specConstraintPairs vb.length gb.length (exemptCol gb),
      a = unitDiff (vb.length * gb.length) p.1 p.2 := by
  unfold get_constraints at hsys
  by_cases he : (conTriples vb gb inc).isEmpty
  · rw [if_pos he] at hsys
    exact absurd hsys (by simp)
  · rw [if_neg he] at hsys
    have h := Option.some.inj hsys
    subst h
    simp only [conTriples_eq, List.map_map] at ha
    obtain ⟨p, hp, hpa⟩ := List.mem_map.mp ha
    exact ⟨p, hp, hpa.symm⟩


theorem parse_grid_vbins (grid : List (List String)) (h2 : ¬ grid.length < 2) :
    (parse_grid grid).1 =
      (grid.tail.map (fun row => row.headD "nan")).filterMap parseVolLabel := by
  simp only [parse_grid, if_neg h2]

theorem parse_grid_gbins (grid : List (List String)) (h2 : ¬ grid.length < 2) :
    (parse_grid grid).2.1 =
      (List.insertionSort (fun a b => a ≤ b)
        ((grid.headD []).tail.filterMap parseFloat)).map toTop
      ++ [(⊤ : WithTop ℚ)] := by
  simp only [parse_grid, if_neg h2]

theorem parse_grid_rates (grid : List (List String)) (h2 : ¬ grid.length < 2) :
    (parse_grid grid).2.2 =
      (List.range (parse_grid grid).1.length).flatMap (fun i =>
        (List.range ((parse_grid grid).2.1.length - 1)).map (fun j =>
          ((i, j), parse_rate_cell (gridCell grid i (j + 1))))) := by
  simp only [parse_grid, if_neg h2]

theorem tail_set_succ {α : Type} (l : List α) (k : ℕ) (a : α) :
    (l.set (k + 1) a).tail = l.tail.set k a := by
  cases l <;> rfl

theorem headD_set_succ {α : Type} (l : List α) (k : ℕ) (a d : α) :
    (l.set (k + 1) a).headD d = l.headD d := by
  cases l <;> rfl

theorem headD_set_zero {α : Type} (l : List α) (a d : α) (h : l ≠ []) :
    (l.set 0 a).headD d = a := by
  cases l with
  | nil => exact absurd rfl h
  | cons x t => rfl

theorem getD_succ_eq_tail_getD {α : Type} (l : List α) (i : ℕ) (d : α) :
    l.getD (i + 1) d = l.tail.getD i d := by
  cases l <;> rfl

theorem getD_map_headD (l : List (List String)) (i : ℕ) :
    (l.map (fun row => row.headD "nan")).getD i "nan" = (l.getD i []).headD "nan" := by
  rcases Nat.lt_or_ge i l.length with h | h
  · rw [List.getD_eq_getElem _ _ (by simpa using h), List.getD_eq_getElem _ _ h,
      List.getElem_map]
  · rw [List.getD_eq_default _ _ (by simpa using h), List.getD_eq_default _ _ h]
    rfl

theorem set_getD_self {α : Type} (l : List α) (i : ℕ) (d : α) (h : i < l.length) :
    l.set i (l.getD i d) = l := by
  induction l generalizing i with
  | nil => simp at h
  | cons x t ih =>
    cases i with
    | zero => rfl
    | succ n =>
      simp only [List.getD_cons_succ, List.set_cons_succ]
      rw [ih n (by simpa using h)]

theorem getD_set_ne {α : Type} (l : List α) {i j : ℕ} (h : i ≠ j) (a d : α) :
    (l.set i a).getD j d = l.getD j d := by
  rw [List.getD_eq_getElem?_getD, List.getElem?_set_ne h, ← List.getD_eq_getElem?_getD]

theorem getD_set_self {α : Type} {l : List α} {i : ℕ} (h : i < l.length) (a d : α) :
    (l.set i a).getD i d = a := by
  rw [List.getD_eq_getElem?_getD, List.getElem?_set_self h]
  rfl

theorem filterMap_set_none {α β : Type} {f : α → Option β} {l : List α} {k : ℕ}
    {u : α} (hk : k < l.length) (hu : f u = none) :
    (l.set k u).filterMap f = (l.eraseIdx k).filterMap f := by
  induction l generalizing k with
  | nil => simp at hk
  | cons x t ih =>
    cases k with
    | zero =>
      show (u :: t).filterMap f = t.filterMap f
      rw [List.filterMap_cons, hu]
    | succ n =>
      show (x :: t.set n u).filterMap f = (x :: t.eraseIdx n).filterMap f
      rw [List.filterMap_cons, List.filterMap_cons, ih (by simpa using hk)]

theorem optimize_returns_pair (S : Solver) (st : RebateOptimizerState) :
    optimize S st =
      (reshape st.volume_bins.length st.growth_bins.length (solverResult S st).x,
       -(solverResult S st).fval) := by
  simp only [optimize, solverResult]
  rw [ite_self]


/-! ## Claim theorems -/

/-- C1 (counterexample): a non-converged solver run IS presented to the
caller exactly like a converged one. With the same last iterate and
objective value, `optimize` returns the identical `(grid, net_revenue)`
pair whether the solver reported `success = False` (with a diagnostic
message) or `success = True`; no converged flag is part of the result,
refuting the claim that a non-converged run is never presented with
the same result shape as a converged one. -/
theorem C1_counterexample :
    (solverResult solverFailing stNonConv).success = false ∧
    (solverResult solverConverged stNonConv).success = true ∧
    optimize solverFailing stNonConv = optimize solverConverged stNonConv := by
  refine ⟨rfl, rfl, ?_⟩
  rw [optimize_returns_pair, optimize_returns_pair]
  simp [solverResult, solverFailing, solverConverged]

/-- C1 (amended): on every solver run, converged or not,
`RebateOptimizer.optimize` returns the pair
`(last iterate reshaped to the grid, negated objective value)`; the
result carries no converged flag, and the failure branch differs only
in printing the solver's diagnostic message before returning the same
shape. -/
theorem C1_optimize_result_shape (S : Solver) (st : RebateOptimizerState) :
    optimize S st =
      (reshape st.volume_bins.length st.growth_bins.length (solverResult S st).x,
       -(solverResult S st).fval) :=
  optimize_returns_pair S st

/-- C2: `get_constraints` produces exactly the linear system the
specification describes — one row `x[r,c] - x[r-1,c] ≥ min_increment`
per non-exempt column `c` and row `r ≥ 1`, and one row
`x[r,c] - x[r,c-1] ≥ min_increment` per row `r` and column `c ≥ 1`
with both `c` and `c-1` non-exempt (exempt ⟺ growth upper bound
≤ 0.08), over the row-major flattening; each `A` row is the
`±1`-difference vector of the index pair, each lower bound is
`min_increment`, each upper bound is `np.inf`; when the pair set is
empty it returns `None`, and `optimize`'s constraint argument for
`None` is the empty list (bounds-only optimization). -/
theorem C2_get_constraints_exact (vb gb : List RateBin) (inc : ℚ) :
    (get_constraints vb gb inc =
      if (specConstraintPairs vb.length gb.length (exemptCol gb)).isEmpty then none
      else some
        { A := (specConstraintPairs vb.length gb.length (exemptCol gb)).map
            (fun p => unitDiff (vb.length * gb.length) p.1 p.2),
          lb := (specConstraintPairs vb.length gb.length (exemptCol gb)).map
            (fun _ => inc),
          ub := (specConstraintPairs vb.length gb.length (exemptCol gb)).map
            (fun _ => (none : Option ℚ)) }) ∧
    constraints_arg none = [] := by
  refine ⟨?_, rfl⟩
  unfold get_constraints
  rw [conTriples_eq]
  cases hps : specConstraintPairs vb.length gb.length (exemptCol gb) with
  | nil => simp
  | cons a t => simp [List.map_map, Function.comp_def]

/-- C3: the per-variable box bounds that `optimize` passes to the
solver pin every cell of an exempt column (growth upper bound ≤ 0.08)
to `[0, 1e-9]` and every cell of a non-exempt column to `[0.01, 0.15]`;
hence any solver iterate respecting those bounds — the contract of the
bound-constrained `trust-constr` call — has exempt cells zero within
floating tolerance and non-exempt cells in `[0.01, 0.15]`. Moreover
the pinning is enforced only via the bounds: every row of the
inequality system built by `get_constraints` has coefficient 0 at
every index lying in an exempt column. -/
theorem C3_exempt_cells_pinned_via_bounds (vb gb : List RateBin) (r c : ℕ)
    (x : List ℚ) (hr : r < vb.length) (hc : c < gb.length)
    (hx : ∀ i, i < vb.length * gb.length →
      ((mkBounds vb gb).getD i (0, 0)).1 ≤ x.getD i 0 ∧
      x.getD i 0 ≤ ((mkBounds vb gb).getD i (0, 0)).2) :
    (exemptCol gb c = true →
      0 ≤ x.getD (r * gb.length + c) 0 ∧
      x.getD (r * gb.length + c) 0 ≤ 1/1000000000) ∧
    (exemptCol gb c = false →
      1/100 ≤ x.getD (r * gb.length + c) 0 ∧
      x.getD (r * gb.length + c) 0 ≤ 15/100) ∧
    (exemptCol gb c = true → ∀ sys, get_constraints vb gb (1/100) = some sys →
      ∀ a ∈ sys.A, a.getD (r * gb.length + c) 0 = 0) := by
  have hidx := idx_lt hr hc
  have hb := mkBounds_getD vb gb r c hr hc (0, 0)
  refine ⟨?_, ?_, ?_⟩
  · intro hex
    have h := hx _ hidx
    rw [hb, hex] at h
    simpa using h
  · intro hex
    have h := hx _ hidx
    rw [hb, hex] at h
    simpa using h
  · intro hex sys hsys a ha
    obtain ⟨p, hp, hpa⟩ := constraint_rows_are_unitDiffs hsys ha
    obtain ⟨r', c', hc', hex', hcase⟩ := mem_specConstraintPairs hp
    have hcne : c ≠ c' := fun h => by rw [h, hex'] at hex; exact Bool.false_ne_true hex
    rcases hcase with hpe | ⟨hex2, hpe⟩
    · subst hpa hpe
      exact unitDiff_getD_ne (flat_idx_ne hc hc' hcne) (flat_idx_ne hc hc' hcne)
    · subst hpa hpe
      have hc2 : c' - 1 < gb.length := Nat.lt_of_le_of_lt (Nat.sub_le _ _) hc'
      have hcne2 : c ≠ c' - 1 := fun h => by
        rw [h, hex2] at hex; exact Bool.false_ne_true hex
      exact unitDiff_getD_ne (flat_idx_ne hc hc' hcne) (flat_idx_ne hc hc2 hcne2)

/-- C3 (witness): a 1×1 grid whose single growth bin has upper bound
exactly 0.08 (exempt); the iterate `[0]` respects the pinned bounds
and its cell lies in `[0, 1e-9]`. -/
theorem C3_exempt_cells_pinned_via_bounds_witness :
    0 ≤ ([(0 : ℚ)].getD (0 * 1 + 0) 0) ∧
    ([(0 : ℚ)].getD (0 * 1 + 0) 0) ≤ 1/1000000000 :=
  (C3_exempt_cells_pinned_via_bounds
      [((5000 : ℚ), (⊤ : WithTop ℚ))]
      [((0 : ℚ), (((8 : ℚ)/100 : ℚ) : WithTop ℚ))] 0 0 [(0 : ℚ)]
      (by simp) (by simp)
      (by
        intro i hi
        have hi0 : i = 0 := by simpa using hi
        subst hi0
        have hrange : List.range 1 = [0] := rfl
        simp [mkBounds, exemptCol, hrange])).1
    (by norm_num [exemptCol])

/-- C8 (counterexample): the initial guess is NOT clipped to the cell
bounds. For a 16×1 grid with a single non-exempt growth column, the
cell `(r, c) = (15, 0)` receives the guess `0.01 + 15·0.01 = 0.16`,
which exceeds its upper bound `0.15`, refuting the claim that every
component of the initial guess lies within its per-variable bounds for
every `rows × cols`. -/
theorem C8_counterexample :
    (mkInitialGuess (List.replicate 16 ((0 : ℚ), (⊤ : WithTop ℚ)))
        [(((8 : ℚ)/100 : ℚ), (⊤ : WithTop ℚ))]).getD 15 0 = 16/100 ∧
    ((mkBounds (List.replicate 16 ((0 : ℚ), (⊤ : WithTop ℚ)))
        [(((8 : ℚ)/100 : ℚ), (⊤ : WithTop ℚ))]).getD 15 ((0 : ℚ), (0 : ℚ))).2
      = 15/100 ∧
    ¬((mkInitialGuess (List.replicate 16 ((0 : ℚ), (⊤ : WithTop ℚ)))
        [(((8 : ℚ)/100 : ℚ), (⊤ : WithTop ℚ))]).getD 15 0 ≤
      ((mkBounds (List.replicate 16 ((0 : ℚ), (⊤ : WithTop ℚ)))
        [(((8 : ℚ)/100 : ℚ), (⊤ : WithTop ℚ))]).getD 15 ((0 : ℚ), (0 : ℚ))).2) := by
  have hg := mkInitialGuess_getD (List.replicate 16 ((0 : ℚ), (⊤ : WithTop ℚ)))
    [(((8 : ℚ)/100 : ℚ), (⊤ : WithTop ℚ))] 15 0 (by simp) (by simp) 0
  have hb := mkBounds_getD (List.replicate 16 ((0 : ℚ), (⊤ : WithTop ℚ)))
    [(((8 : ℚ)/100 : ℚ), (⊤ : WithTop ℚ))] 15 0 (by simp) (by simp) (0, 0)
  have e1 : 15 * [(((8 : ℚ)/100 : ℚ), (⊤ : WithTop ℚ))].length + 0 = 15 := by simp
  rw [e1] at hg hb
  have hex : exemptCol [(((8 : ℚ)/100 : ℚ), (⊤ : WithTop ℚ))] 0 = false := by
    simp [exemptCol]
  rw [hex] at hg hb
  simp only [Bool.false_eq_true, if_false] at hg hb
  refine ⟨?_, ?_, ?_⟩
  · rw [hg]; push_cast; norm_num
  · rw [hb]
  · rw [hg, hb]; push_cast; norm_num

/-- C8 (amended): the initial guess assigns each exempt cell `0.0` and
each non-exempt cell `(r, c)` the UNCLIPPED value
`0.01 + (r + c) * 0.01`; an exempt component always lies within its
pinned bounds `[0, 1e-9]`, while a non-exempt component lies within
its bounds `[0.01, 0.15]` if and only if `r + c ≤ 14` — so for grid
shapes with `(rows - 1) + (cols - 1) ≥ 15` the guess violates its
upper bound. -/
theorem C8_initial_guess_unclipped (vb gb : List RateBin) (r c : ℕ)
    (hr : r < vb.length) (hc : c < gb.length) :
    (mkInitialGuess vb gb).getD (r * gb.length + c) 0 =
      (if exemptCol gb c then (0 : ℚ)
       else (1 : ℚ)/100 + ((r + c : ℕ) : ℚ) * ((1 : ℚ)/100)) ∧
    (exemptCol gb c = true →
      ((mkBounds vb gb).getD (r * gb.length + c) (0, 0)).1 ≤
        (mkInitialGuess vb gb).getD (r * gb.length + c) 0 ∧
      (mkInitialGuess vb gb).getD (r * gb.length + c) 0 ≤
        ((mkBounds vb gb).getD (r * gb.length + c) (0, 0)).2) ∧
    (exemptCol gb c = false →
      ((((mkBounds vb gb).getD (r * gb.length + c) (0, 0)).1 ≤
          (mkInitialGuess vb gb).getD (r * gb.length + c) 0 ∧
        (mkInitialGuess vb gb).getD (r * gb.length + c) 0 ≤
          ((mkBounds vb gb).getD (r * gb.length + c) (0, 0)).2) ↔ r + c ≤ 14)) := by
  have hg := mkInitialGuess_getD vb gb r c hr hc 0
  have hb := mkBounds_getD vb gb r c hr hc (0, 0)
  refine ⟨hg, ?_, ?_⟩
  · intro hex
    rw [hg, hb, hex]
    norm_num
  · intro hex
    rw [hg, hb, hex]
    simp only [Bool.false_eq_true, if_false]
    constructor
    · intro h
      have h2 := h.2
      have h3 : ((r + c : ℕ) : ℚ) ≤ 14 := by linarith
      exact_mod_cast h3
    · intro h
      have h3 : ((r + c : ℕ) : ℚ) ≤ 14 := by exact_mod_cast h
      constructor
      · have h4 : (0 : ℚ) ≤ ((r + c : ℕ) : ℚ) := Nat.cast_nonneg _
        linarith
      · linarith

/-- C8 (witness): at the 2×2 grid with one exempt and one non-exempt
column, cell `(1, 1)` (non-exempt, `r + c = 2 ≤ 14`) receives the
in-bounds guess `0.01 + 2·0.01`. -/
theorem C8_initial_guess_unclipped_witness :
    (mkInitialGuess
        [((0 : ℚ), (⊤ : WithTop ℚ)), ((0 : ℚ), (⊤ : WithTop ℚ))]
        [((0 : ℚ), (((8 : ℚ)/100 : ℚ) : WithTop ℚ)),
         (((8 : ℚ)/100 : ℚ), (⊤ : WithTop ℚ))]).getD (1 * 2 + 1) 0 =
      (if exemptCol [((0 : ℚ), (((8 : ℚ)/100 : ℚ) : WithTop ℚ)),
         (((8 : ℚ)/100 : ℚ), (⊤ : WithTop ℚ))] 1 then (0 : ℚ)
       else (1 : ℚ)/100 + ((1 + 1 : ℕ) : ℚ) * ((1 : ℚ)/100)) :=
  (C8_initial_guess_unclipped
    [((0 : ℚ), (⊤ : WithTop ℚ)), ((0 : ℚ), (⊤ : WithTop ℚ))]
    [((0 : ℚ), (((8 : ℚ)/100 : ℚ) : WithTop ℚ)),
     (((8 : ℚ)/100 : ℚ), (⊤ : WithTop ℚ))] 1 1 (by simp) (by simp)).1

/-- C4: both objective functions compute the negated sum, over occupied
cells, of `B[r,c] * (1 + response(x[r,c])) * (1 - x[r,c])` — the
response model being `elasticity * rate` for `RebateOptimizer` and the
fitted linear model `intercept + coef * rate` for `MLRebateOptimizer`:
net revenue per cell is projected revenue times `(1 - rate)`, summed
and negated for minimization. -/
theorem C4_objective_is_neg_net_revenue (elasticity coef intercept : ℚ)
    (cols : ℕ) (agg : List AggRow) (flat_rates : List ℚ) :
    objective_function elasticity cols agg flat_rates =
      objective_spec (fun rate => elasticity * rate) cols agg flat_rates ∧
    ML_objective_function coef intercept cols agg flat_rates =
      objective_spec (fun rate => intercept + coef * rate) cols agg flat_rates := by
  constructor
  · unfold objective_function objective_spec net_revenue_spec
    congr 1
    apply congrArg
    apply List.map_congr_left
    intro e _
    ring
  · unfold ML_objective_function objective_spec net_revenue_spec
    congr 1
    apply congrArg
    apply List.map_congr_left
    intro e _
    ring

/-- C5 (counterexample): in `RebateOptimizer.set_bins` (cited by the
claim) the derived growth value is NOT guarded: an account with
`prevyr_rev = 0` and `curryr_rev = 5000` gets growth `+inf`, not the
finite value 0 the claim requires for every record processed by tier
assignment. -/
theorem C5_counterexample :
    set_bins_growth_val (FVal.num 5000) (FVal.num 0) = FVal.pinf ∧
    FVal.pinf ≠ FVal.num 0 := by
  constructor
  · show fdiv (FVal.num (5000 - 0)) (FVal.num 0) = FVal.pinf
    simp only [fdiv]
    norm_num
  · exact fun h => FVal.noConfusion h

/-- C5 (amended): in `assign_tiers_from_bins` (app.py) the cleaned
growth value is always a finite number, and for `prior = 0` it is 0
and the record receives the (defined, non-crashing) tier
classification of growth 0; in `RebateOptimizer.set_bins` there is no
such guard — `prior = 0` with positive current revenue yields growth
`+inf` and the record falls in no growth bin (code `-1`) and is
dropped from the aggregation, still without crashing. -/
theorem C5_growth_guard (curr prev : FVal) (gedges : List (WithTop ℚ)) :
    (∃ q : ℚ, cleanGrowth (growth_raw curr prev) = FVal.num q) ∧
    (prev = FVal.num 0 →
      cleanGrowth (growth_raw curr prev) = FVal.num 0 ∧
      gIdxOf gedges (cleanGrowth (growth_raw curr prev)) =
        pdCutIdx gedges ((0 : ℚ) : WithTop ℚ)) ∧
    (∀ q : ℚ, 0 < q →
      gIdxOf gedges (set_bins_growth_val (FVal.num q) (FVal.num 0)) = none) := by
  refine ⟨?_, ?_, ?_⟩
  · cases h : growth_raw curr prev <;> simp [cleanGrowth]
  · intro hprev
    subst hprev
    have h0 : cleanGrowth (growth_raw curr (FVal.num 0)) = FVal.num 0 := by
      cases curr with
      | num q =>
        show cleanGrowth (fdiv (FVal.num (q - 0)) (FVal.num 0)) = FVal.num 0
        simp only [fdiv, if_true]
        split_ifs <;> rfl
      | nan => rfl
      | pinf =>
        show cleanGrowth (fdiv FVal.pinf (FVal.num 0)) = FVal.num 0
        simp only [fdiv]
        split_ifs <;> rfl
      | ninf =>
        show cleanGrowth (fdiv FVal.ninf (FVal.num 0)) = FVal.num 0
        simp only [fdiv]
        split_ifs <;> rfl
    exact ⟨h0, by rw [h0]; rfl⟩
  · intro q hq
    have hpinf : set_bins_growth_val (FVal.num q) (FVal.num 0) = FVal.pinf := by
      show fdiv (FVal.num (q - 0)) (FVal.num 0) = FVal.pinf
      simp only [fdiv, if_true]
      rw [if_pos (by linarith : (0 : ℚ) < q - 0)]
    rw [hpinf]
    exact pdCutIdx_top gedges

/-- C5 (witness): the guarded pipeline maps the account
`(curr, prior) = (5000, 0)` to growth exactly 0, while the unguarded
`set_bins` pipeline drops the same account from every bin
configuration (here edges `[0, ∞)`). -/
theorem C5_growth_guard_witness :
    cleanGrowth (growth_raw (FVal.num 5000) (FVal.num 0)) = FVal.num 0 ∧
    gIdxOf [((0 : ℚ) : WithTop ℚ), ⊤]
      (set_bins_growth_val (FVal.num 5000) (FVal.num 0)) = none :=
  ⟨((C5_growth_guard (FVal.num 5000) (FVal.num 0)
      [((0 : ℚ) : WithTop ℚ), ⊤]).2.1 rfl).1,
   (C5_growth_guard (FVal.num 5000) (FVal.num 0)
      [((0 : ℚ) : WithTop ℚ), ⊤]).2.2 5000 (by norm_num)⟩

/-- C6: `parse_rate_cell` (the rate-cell branch of `parse_grid`)
divides any `%`-marked numeric value by 100, reinterprets a bare
numeric value strictly greater than 1 as a percentage (divides it by
100), and takes a bare value at most 1 as-is. -/
theorem C6_rate_cell_parsing (s : String) (q : ℚ) :
    ((stripChars s.data).contains '%' = true →
      parseSignedChars
        (stripChars ((stripChars s.data).filter (fun ch => ch != '%'))) = some q →
      parse_rate_cell s = q / 100) ∧
    ((stripChars s.data).contains '%' = false →
      parseSignedChars (stripChars s.data) = some q →
      ((1 < q → parse_rate_cell s = q / 100) ∧
       (q ≤ 1 → parse_rate_cell s = q))) := by
  constructor
  · intro hpc hq
    simp only [parse_rate_cell, hpc, if_true, hq]
  · intro hpc hq
    constructor
    · intro h1
      simp only [parse_rate_cell, hpc, Bool.false_eq_true, if_false, hq, if_pos h1]
    · intro h1
      simp only [parse_rate_cell, hpc, Bool.false_eq_true, if_false, hq,
        if_neg (not_lt.mpr h1)]

/-- C6 (witness): `"5%"` parses to 0.05, the bare `"7"` (greater than
1) to 0.07 and the bare `"0.03"` to 0.03. -/
theorem C6_rate_cell_parsing_witness :
    parse_rate_cell "5%" = 5 / 100 ∧
    parse_rate_cell "7" = (7 : ℚ) / 100 ∧
    parse_rate_cell "0.03" = (3 : ℚ) / 100 := by
  refine ⟨?_, ?_, ?_⟩
  · exact (C6_rate_cell_parsing "5%" 5).1 (by decide)
      (by simp +decide [parseSignedChars, parseUnsignedChars, stripChars, digitsVal])
  · exact ((C6_rate_cell_parsing "7" 7).2 (by decide)
      (by simp +decide [parseSignedChars, parseUnsignedChars, stripChars, digitsVal])).1
      (by norm_num)
  · have h := (C6_rate_cell_parsing "0.03" ((3 : ℚ)/100)).2 (by decide)
      (by
        simp +decide [parseSignedChars, parseUnsignedChars, stripChars, digitsVal]
        norm_num)
    exact h.2 (by norm_num)

/-- C7: `parse_grid` recovers locally from malformed input and never
aborts the grid parse. Replacing one rate cell (data row `i`, input
column `j+1`) by an unparseable string changes nothing but that cell's
stored rate, which defaults to 0 — the bins and every other rate are
returned unchanged. A data row whose volume-bin label is unparseable
is skipped: the volume bins are those of the remaining labels. A
column header that does not parse as a float is skipped: the growth
bins are built from the remaining headers. -/
theorem C7_parse_grid_local_recovery (grid : List (List String)) (u : String)
    (i j k jh : ℕ)
    (h2 : 2 ≤ grid.length)
    (hupc : (stripChars u.data).contains '%' = false)
    (hups : parseSignedChars (stripChars u.data) = none)
    (hulab : parseVolLabel u = none)
    (huhd : parseFloat u = none)
    (hi : i < (parse_grid grid).1.length)
    (hj : j < (parse_grid grid).2.1.length - 1)
    (hrow : j + 1 < (grid.tail.getD i []).length)
    (hk : k < grid.tail.length)
    (hkrow : grid.tail.getD k [] ≠ [])
    (hjh : jh < (grid.headD []).tail.length) :
    (parse_grid (updateCell grid (i + 1) (j + 1) u)).1 = (parse_grid grid).1 ∧
    (parse_grid (updateCell grid (i + 1) (j + 1) u)).2.1 = (parse_grid grid).2.1 ∧
    (parse_grid (updateCell grid (i + 1) (j + 1) u)).2.2 =
      (parse_grid grid).2.2.map
        (fun e => if e.1 = (i, j) then (e.1, (0 : ℚ)) else e) ∧
    (parse_grid (updateCell grid (k + 1) 0 u)).1 =
      ((grid.tail.map (fun row => row.headD "nan")).eraseIdx k).filterMap
        parseVolLabel ∧
    (parse_grid (updateCell grid 0 (jh + 1) u)).2.1 =
      (List.insertionSort (fun a b => a ≤ b)
        (((grid.headD []).tail.eraseIdx jh).filterMap parseFloat)).map toTop
      ++ [(⊤ : WithTop ℚ)] := by
  have h2' : ¬ grid.length < 2 := by omega
  have h2u : ∀ r c s, ¬ (updateCell grid r c s).length < 2 := by
    intro r c s
    simp only [updateCell, List.length_set]
    omega
  have hitail : i < grid.tail.length := by
    rw [parse_grid_vbins grid h2'] at hi
    calc i < _ := hi
      _ ≤ (grid.tail.map (fun row => row.headD "nan")).length :=
        List.length_filterMap_le _ _
      _ = grid.tail.length := by simp
  have p1 : (parse_grid (updateCell grid (i + 1) (j + 1) u)).1 =
      (parse_grid grid).1 := by
    rw [parse_grid_vbins _ (h2u _ _ _), parse_grid_vbins _ h2']
    have ht : (updateCell grid (i + 1) (j + 1) u).tail =
        grid.tail.set i ((grid.getD (i + 1) []).set (j + 1) u) := by
      simp only [updateCell]
      exact tail_set_succ grid i _
    rw [ht, List.map_set, headD_set_succ, getD_succ_eq_tail_getD, ← getD_map_headD,
      set_getD_self _ i _ (by rw [List.length_map]; exact hitail)]
  have p2 : (parse_grid (updateCell grid (i + 1) (j + 1) u)).2.1 =
      (parse_grid grid).2.1 := by
    rw [parse_grid_gbins _ (h2u _ _ _), parse_grid_gbins _ h2']
    have hh : (updateCell grid (i + 1) (j + 1) u).headD [] = grid.headD [] := by
      simp only [updateCell]
      exact headD_set_succ grid i _ []
    rw [hh]
  have p3 : (parse_grid (updateCell grid (i + 1) (j + 1) u)).2.2 =
      (parse_grid grid).2.2.map
        (fun e => if e.1 = (i, j) then (e.1, (0 : ℚ)) else e) := by
    rw [parse_grid_rates _ (h2u _ _ _), parse_grid_rates _ h2', p1, p2,
      List.map_flatMap]
    apply flatMap_congr_mem
    intro a ha
    rw [List.map_map]
    apply List.map_congr_left
    intro b _
    simp only [Function.comp_apply]
    have ht : (updateCell grid (i + 1) (j + 1) u).tail =
        grid.tail.set i ((grid.getD (i + 1) []).set (j + 1) u) := by
      simp only [updateCell]
      exact tail_set_succ grid i _
    by_cases hab : ((a, b) : ℕ × ℕ) = (i, j)
    · obtain ⟨ha1, hb1⟩ := Prod.mk.injEq .. ▸ hab
      subst ha1
      subst hb1
      have hcell : gridCell (updateCell grid (a + 1) (b + 1) u) a (b + 1) = u := by
        simp only [gridCell]
        rw [ht, getD_set_self hitail]
        have hlen2 : b + 1 < (grid.getD (a + 1) []).length := by
          rw [getD_succ_eq_tail_getD]
          exact hrow
        exact getD_set_self hlen2 u _
      have hprc : parse_rate_cell u = 0 := by
        simp only [parse_rate_cell, hupc, Bool.false_eq_true, if_false, hups]
      rw [hcell, hprc, if_pos rfl]
    · have hcell : gridCell (updateCell grid (i + 1) (j + 1) u) a (b + 1) =
          gridCell grid a (b + 1) := by
        simp only [gridCell]
        rw [ht]
        by_cases hai : a = i
        · subst hai
          have hbj : b ≠ j := by
            intro hb1
            exact hab (by rw [hb1])
          rw [getD_set_self hitail,
            getD_set_ne _ (fun h => hbj (Nat.succ_injective h).symm),
            show grid.getD (a + 1) [] = grid.tail.getD a [] from
              getD_succ_eq_tail_getD grid a []]
        · rw [getD_set_ne _ (fun h => hai h.symm)]
      rw [hcell, if_neg hab]
  have p4 : (parse_grid (updateCell grid (k + 1) 0 u)).1 =
      ((grid.tail.map (fun row => row.headD "nan")).eraseIdx k).filterMap
        parseVolLabel := by
    rw [parse_grid_vbins _ (h2u _ _ _)]
    have ht : (updateCell grid (k + 1) 0 u).tail =
        grid.tail.set k ((grid.getD (k + 1) []).set 0 u) := by
      simp only [updateCell]
      exact tail_set_succ grid k _
    rw [ht, List.map_set, getD_succ_eq_tail_getD, headD_set_zero _ _ _ hkrow]
    exact filterMap_set_none (by rw [List.length_map]; exact hk) hulab
  have p5 : (parse_grid (updateCell grid 0 (jh + 1) u)).2.1 =
      (List.insertionSort (fun a b => a ≤ b)
        (((grid.headD []).tail.eraseIdx jh).filterMap parseFloat)).map toTop
      ++ [(⊤ : WithTop ℚ)] := by
    rw [parse_grid_gbins _ (h2u _ _ _)]
    have hne : grid ≠ [] := by
      intro h
      rw [h] at h2
      simp at h2
    have hg0 : grid.getD 0 [] = grid.headD [] := by cases grid <;> rfl
    have hh : (updateCell grid 0 (jh + 1) u).headD [] =
        (grid.headD []).set (jh + 1) u := by
      simp only [updateCell, hg0]
      exact headD_set_zero _ _ _ hne
    rw [hh, tail_set_succ, filterMap_set_none hjh huhd]
  exact ⟨p1, p2, p3, p4, p5⟩

/-- C7 (witness): corrupting the rate cell at data row 0, column 1 of
a concrete 2×2 grid with the unparseable string `"abc"` leaves the
parsed volume bins unchanged. -/
theorem C7_parse_grid_local_recovery_witness :
    (parse_grid (updateCell
        [["vol", "15", "8"], ["0-10", "1%", "2%"], ["10-20", "3%", "4%"]]
        (0 + 1) (0 + 1) "abc")).1 =
      (parse_grid
        [["vol", "15", "8"], ["0-10", "1%", "2%"], ["10-20", "3%", "4%"]]).1 :=
  (C7_parse_grid_local_recovery
    [["vol", "15", "8"], ["0-10", "1%", "2%"], ["10-20", "3%", "4%"]]
    "abc" 0 0 0 0 (by decide) (by decide) (by decide) (by decide) (by decide)
    (by
      rw [parse_grid_vbins _ (by decide)]
      decide)
    (by
      rw [parse_grid_gbins _ (by decide)]
      simp +decide [parseFloat, parseSignedChars, parseUnsignedChars, stripChars,
        digitsVal])
    (by decide) (by decide) (by decide) (by decide)).1

/-- C10: `parse_grid` sorts the parsed numeric growth headers
ascending and appends `+inf`, so the returned growth-bin edge sequence
is always sorted and ends in `⊤`; but each rate is read by the
ORIGINAL column position — the rate stored under key `(i, j)` is the
parsed cell of data row `i`, input column `j + 1`, regardless of where
that column's header landed in the sorted edge sequence. -/
theorem C10_sorted_bins_positional_rates (grid : List (List String))
    (h2 : 2 ≤ grid.length) (i j : ℕ)
    (hi : i < (parse_grid grid).1.length)
    (hj : j < (parse_grid grid).2.1.length - 1) :
    List.Sorted (fun a b => a ≤ b) (parse_grid grid).2.1 ∧
    (parse_grid grid).2.1.getLast? = some ⊤ ∧
    ((i, j), parse_rate_cell (gridCell grid i (j + 1))) ∈ (parse_grid grid).2.2 := by
  have h2' : ¬ grid.length < 2 := by omega
  refine ⟨?_, ?_, ?_⟩
  · rw [parse_grid_gbins grid h2']
    rw [List.Sorted, List.pairwise_append]
    refine ⟨?_, by simp, ?_⟩
    · exact List.Pairwise.map toTop (fun {a b} hab => WithTop.coe_le_coe.mpr hab)
        (List.sorted_insertionSort (fun a b => a ≤ b) _)
    · intro a _ b hb
      simp only [List.mem_singleton] at hb
      subst hb
      exact le_top
  · rw [parse_grid_gbins grid h2']
    exact List.getLast?_concat _
  · rw [parse_grid_rates grid h2']
    rw [List.mem_flatMap]
    exact ⟨i, List.mem_range.mpr hi, List.mem_map.mpr ⟨j, List.mem_range.mpr hj, rfl⟩⟩

/-- C10 (witness): the grid with UNSORTED headers `15, 8`. The edge
list comes back sorted (`[8, 15, ⊤]`), while the rate stored for the
first growth label is the parsed first rate column (`"1%"` under the
header 15), not the rate of the column whose header (8) became the
first sorted bound (`"2%"`). -/
theorem C10_sorted_bins_positional_rates_witness :
    (((0, 0),
      parse_rate_cell (gridCell [["vol", "15", "8"], ["0-10", "1%", "2%"]] 0 1)) ∈
        (parse_grid [["vol", "15", "8"], ["0-10", "1%", "2%"]]).2.2) ∧
    parse_rate_cell (gridCell [["vol", "15", "8"], ["0-10", "1%", "2%"]] 0 1) = 1/100 ∧
    parse_rate_cell (gridCell [["vol", "15", "8"], ["0-10", "1%", "2%"]] 0 2) = 2/100 ∧
    ((1 : ℚ)/100 ≠ 2/100) := by
  refine ⟨?_, ?_, ?_, by norm_num⟩
  · exact (C10_sorted_bins_positional_rates [["vol", "15", "8"], ["0-10", "1%", "2%"]]
      (by decide) 0 0
      (by
        rw [parse_grid_vbins _ (by decide)]
        decide)
      (by
        rw [parse_grid_gbins _ (by decide)]
        simp +decide [parseFloat, parseSignedChars, parseUnsignedChars, stripChars,
          digitsVal])).2.2
  · show parse_rate_cell "1%" = 1/100
    simp +decide [parse_rate_cell, parseSignedChars, parseUnsignedChars, stripChars,
      digitsVal]
  · show parse_rate_cell "2%" = 2/100
    simp +decide [parse_rate_cell, parseSignedChars, parseUnsignedChars, stripChars,
      digitsVal]

/-- C9: the whole `optimize` pipeline is deterministic — two optimizer
states agreeing on the bin configuration, the aggregate table and the
elasticity (they may differ in any other state, e.g. the data path or
the raw account table) produce, under the same deterministic solver,
the identical returned grid and net-revenue value. In particular
calling `optimize` twice on the same state yields the same result. -/
theorem C9_optimize_deterministic (S : Solver) (st1 st2 : RebateOptimizerState)
    (hv : st1.volume_bins = st2.volume_bins)
    (hg : st1.growth_bins = st2.growth_bins)
    (ha : st1.agg_data = st2.agg_data)
    (he : st1.elasticity = st2.elasticity) :
    optimize S st1 = optimize S st2 := by
  unfold optimize
  rw [hv, hg, ha, he]

/-- C9 (witness): two concretely distinct states — different data path
and raw table, equal bins, aggregates and elasticity — give equal
`optimize` results under a concrete solver. -/
theorem C9_optimize_deterministic_witness :
    optimize (fun _ g _ _ => { success := true, x := g, fval := 0, message := "" })
      { data_path := "run1.csv", elasticity := 2, df_base := [(6000, 5000)],
        volume_bins := [((5000 : ℚ), (⊤ : WithTop ℚ))],
        growth_bins := [(((8 : ℚ)/100 : ℚ), (⊤ : WithTop ℚ))],
        agg_data := [(0, 0, 6000)] } =
    optimize (fun _ g _ _ => { success := true, x := g, fval := 0, message := "" })
      { data_path := "run2.csv", elasticity := 2, df_base := [],
        volume_bins := [((5000 : ℚ), (⊤ : WithTop ℚ))],
        growth_bins := [(((8 : ℚ)/100 : ℚ), (⊤ : WithTop ℚ))],
        agg_data := [(0, 0, 6000)] } :=
  C9_optimize_deterministic _ _ _ rfl rfl rfl rfl

end RebateSim


